import Mathlib

/-!
Verification of the cucitura-check-api analysis core.

This file gives a shallow embedding of the repository's analysis pipeline:
the `analyzeSite` core (severity model, issue synthesis from extracted
findings, per-dimension penalty scores, PageSpeed category-score
normalization, severity-stable sorting, quick-win projection, weighted
total), the route handler's PageSpeed retry policy and degraded fetch
path, and the URL normalizer.  Numeric computations that the source does
on JS numbers are modelled on `ℚ` with `round` (`Math.round`, i.e.
`⌊x + 1/2⌋`); machine strings are modelled by `String`/`List Char`; the
browser-engine helpers the source calls (`String.prototype.toLowerCase`
restricted to ASCII, `String.prototype.includes`) are modelled by
executable functions below.
-/

namespace CucituraCheck

/-- ASCII lower-casing of a single character.  Models the effect of
`String.prototype.toLowerCase` on the ASCII range (the only range the
source's keyword and host comparisons rely on). -/
def lowerChar (c : Char) : Char :=
  match c with
  | 'A' => 'a' | 'B' => 'b' | 'C' => 'c' | 'D' => 'd' | 'E' => 'e'
  | 'F' => 'f' | 'G' => 'g' | 'H' => 'h' | 'I' => 'i' | 'J' => 'j'
  | 'K' => 'k' | 'L' => 'l' | 'M' => 'm' | 'N' => 'n' | 'O' => 'o'
  | 'P' => 'p' | 'Q' => 'q' | 'R' => 'r' | 'S' => 's' | 'T' => 't'
  | 'U' => 'u' | 'V' => 'v' | 'W' => 'w' | 'X' => 'x' | 'Y' => 'y'
  | 'Z' => 'z'
  | other => other

/-- Lower-case a string character-wise (models `s.toLowerCase()`). -/
def strLower (s : String) : String :=
  String.mk (s.data.map lowerChar)

/-- Does `pat` occur as a contiguous run inside `l`?  Models
`String.prototype.includes` at the character-list level. -/
def containsList : List Char → List Char → Bool
  | [], pat => pat.isEmpty
  | c :: cs, pat => List.isPrefixOf pat (c :: cs) || containsList cs pat

/-- Models `s.includes(pat)`. -/
def containsSub (s pat : String) : Bool :=
  containsList s.data pat.data

/-- The whitespace characters relevant to the source's `trim` calls. -/
def wsChar (c : Char) : Bool :=
  c = ' ' || c = '\t' || c = '\n' || c = '\r'

/-- Drop leading and trailing whitespace from a character list. -/
def trimList (l : List Char) : List Char :=
  ((l.dropWhile wsChar).reverse.dropWhile wsChar).reverse

/-- Models `s.trim()`. -/
def strTrim (s : String) : String :=
  String.mk (trimList s.data)

/-- The four severity levels of `type Severity` in the source. -/
inductive Severity
  | critical
  | high
  | medium
  | low
deriving DecidableEq, Repr, BEq

/-- One `{ key, severity, fix }` issue record (`type Issue`). -/
structure Issue where
  key : String
  severity : Severity
  fix : String
deriving DecidableEq, Repr, BEq

/-- `severityRank`: critical 0, high 1, medium 2, low 3. -/
def severityRank : Severity → Nat
  | .critical => 0
  | .high => 1
  | .medium => 2
  | .low => 3

/-- `scoreFromIssues`: start at 100, subtract a fixed penalty per issue
(critical 25, high 15, medium 8, low 3), clamp to [0, 100]. -/
def scoreFromIssues (issues : List Issue) : Int :=
  let score := issues.foldl
    (fun score it =>
      if it.severity = .critical then score - 25
      else if it.severity = .high then score - 15
      else if it.severity = .medium then score - 8
      else if it.severity = .low then score - 3
      else score)
    (100 : Int)
  max 0 (min 100 score)

/-- `textLen`: length of the trimmed string. -/
def textLen (s : String) : Nat :=
  (strTrim s).length

/-- The values `seoChecks` reads off the parsed document before applying
its rule table: first `<title>` text, `description` meta content, number
of `<h1>` elements, canonical href, robots meta content and the three
OpenGraph properties.  The cheerio extraction itself is a parser library
call; the rules below consume its results. -/
structure SeoFindings where
  title : String
  metaDesc : String
  h1Count : Nat
  canonical : String
  robots : String
  ogTitle : String
  ogDesc : String
  ogImage : String
deriving DecidableEq, Repr

/-- The issue rules of `seoChecks`, in source push order. -/
def seoChecks (f : SeoFindings) : List Issue :=
  let tLen := textLen f.title
  let dLen := textLen f.metaDesc
  (if tLen = 0 then
    [{ key := "seo.title.missing", severity := .high,
       fix := "Aggiungi un <title> unico per la homepage." }]
   else if tLen < 25 ∨ tLen > 65 then
    [{ key := "seo.title.length", severity := .medium,
       fix := "Ottimizza il title (attuale " ++ toString tLen ++ " caratteri)." }]
   else [])
  ++ (if dLen = 0 then
    [{ key := "seo.metadesc.missing", severity := .high,
       fix := "Aggiungi meta description per aumentare CTR su Google." }]
   else if dLen < 70 ∨ dLen > 170 then
    [{ key := "seo.metadesc.length", severity := .medium,
       fix := "Ottimizza la description (attuale " ++ toString dLen ++ " caratteri)." }]
   else [])
  ++ (if f.h1Count = 0 then
    [{ key := "seo.h1.missing", severity := .high,
       fix := "Inserisci un H1 chiaro (proposta di valore)." }]
   else if f.h1Count > 1 then
    [{ key := "seo.h1.multiple", severity := .low,
       fix := "Mantieni 1 solo H1 principale per pagina." }]
   else [])
  ++ (if f.canonical = "" then
    [{ key := "seo.canonical.missing", severity := .low,
       fix := "Imposta canonical per evitare duplicazioni." }]
   else [])
  ++ (if containsSub (strLower f.robots) "noindex" then
    [{ key := "seo.noindex", severity := .critical,
       fix := "Rimuovi noindex dalla homepage (se non voluto)." }]
   else [])
  ++ (if f.ogTitle = "" ∨ f.ogDesc = "" ∨ f.ogImage = "" then
    [{ key := "seo.opengraph.incomplete", severity := .low,
       fix := "Completa OpenGraph (og:title/og:description/og:image) per anteprime social." }]
   else [])

/-- The six boolean trust-link findings returned by `findTrustLinks`. -/
structure TrustFindings where
  contact : Bool
  shipping : Bool
  returns : Bool
  privacy : Bool
  terms : Bool
  faq : Bool
deriving DecidableEq, Repr

/-- The trust-issue rules inlined in `analyzeSite` (five rules: contact,
shipping, returns, privacy, terms; the `faq` finding produces no issue). -/
def trustIssuesOf (t : TrustFindings) : List Issue :=
  (if t.contact then [] else
    [{ key := "trust.contact.missing", severity := .high,
       fix := "Rendi visibili Contatti/Assistenza (header o footer)." }])
  ++ (if t.shipping then [] else
    [{ key := "trust.shipping.missing", severity := .high,
       fix := "Aggiungi pagina Spedizioni e linkala nel footer." }])
  ++ (if t.returns then [] else
    [{ key := "trust.returns.missing", severity := .high,
       fix := "Aggiungi pagina Resi/Cambi vicino alle CTA prodotto." }])
  ++ (if t.privacy then [] else
    [{ key := "trust.privacy.missing", severity := .medium,
       fix := "Linka Privacy/Cookie policy nel footer." }])
  ++ (if t.terms then [] else
    [{ key := "trust.terms.missing", severity := .low,
       fix := "Aggiungi Termini e Condizioni nel footer." }])

/-- The UX-issue rule inlined in `analyzeSite`. -/
def uxIssuesOf (hasPrimaryCta : Bool) : List Issue :=
  if hasPrimaryCta then [] else
    [{ key := "ux.cta.unclear", severity := .medium,
       fix := "Inserisci una CTA primaria chiara sopra la piega (es. \x27Scopri i prodotti\x27)." }]

/-- The raw `lighthouseResult.categories` scores of a successful
PageSpeed response: each category either carries a 0–1 score or is
absent from the JSON. -/
structure RawCategories where
  performance : Option ℚ
  seo : Option ℚ
  bestPractices : Option ℚ
  accessibility : Option ℚ
deriving DecidableEq, Repr

/-- The normalized integer scores `runPageSpeed` returns. -/
structure PsiScores where
  performance : Int
  seo : Int
  bestPractices : Int
  accessibility : Int
deriving DecidableEq, Repr

/-- One category score in `runPageSpeed`:
`Math.round((cats.<id>?.score ?? 0) * 100)`. -/
def psCategoryScore (s : Option ℚ) : Int :=
  round ((s.getD 0) * 100)

/-- The score block of a successful `runPageSpeed` call. -/
def runPageSpeedScores (c : RawCategories) : PsiScores :=
  { performance := psCategoryScore c.performance
    seo := psCategoryScore c.seo
    bestPractices := psCategoryScore c.bestPractices
    accessibility := psCategoryScore c.accessibility }

/-- The sort comparator `(a, b) => severityRank(a.severity) - severityRank(b.severity)`
as a boolean `≤` relation on issues. -/
def rankLe (a b : Issue) : Bool :=
  severityRank a.severity ≤ severityRank b.severity

/-- `issues.sort(...)`: JS `Array.prototype.sort` is stable, modelled by
the stable `List.mergeSort`. -/
def sortIssues (l : List Issue) : List Issue :=
  l.mergeSort rankLe

/-- The quick-win severity filter
`["critical", "high", "medium"].includes(i.severity)`. -/
def quickWinFilter (i : Issue) : Bool :=
  [Severity.critical, Severity.high, Severity.medium].contains i.severity

/-- The `scores` object of the final report. -/
structure ScoresOut where
  total : Int
  performance : Option Int
  seo : Int
  ux : Int
  trust : Int
deriving DecidableEq, Repr

/-- The part of the `analyzeSite` report the verified claims are about:
composite scores, the severity-sorted issues list, and the quick-win
projection. -/
structure Report where
  scores : ScoresOut
  issues : List Issue
  quickWins : List String
deriving DecidableEq, Repr

/-- The aggregation core of `analyzeSite`, operating on the extracted
findings and on the PageSpeed outcome (`none` models the catch branch
where `runPageSpeed` threw and `psi.scores` is absent). -/
def analyzeSite (seoIn : SeoFindings) (trust : TrustFindings)
    (hasPrimaryCta : Bool) (psi : Option PsiScores) : Report :=
  let seoIssues := seoChecks seoIn
  let trustIssues := trustIssuesOf trust
  let uxIssues := uxIssuesOf hasPrimaryCta
  let issues := sortIssues (seoIssues ++ trustIssues ++ uxIssues)
  let trustScore := scoreFromIssues trustIssues
  let uxScore := scoreFromIssues uxIssues
  let perfScore : Option Int := psi.map fun p => p.performance
  let seoScore : Int :=
    match psi with
    | some p => p.seo
    | none => scoreFromIssues seoIssues
  let total : Int :=
    match perfScore with
    | some p =>
      round ((0.35 : ℚ) * (p : ℚ) + (0.3 : ℚ) * (uxScore : ℚ)
        + (0.2 : ℚ) * (seoScore : ℚ) + (0.15 : ℚ) * (trustScore : ℚ))
    | none =>
      round ((0.4 : ℚ) * (seoScore : ℚ) + (0.35 : ℚ) * (uxScore : ℚ)
        + (0.25 : ℚ) * (trustScore : ℚ))
  let quickWins := ((issues.filter quickWinFilter).take 7).map fun i => i.fix
  { scores :=
      { total := total
        performance := perfScore
        seo := seoScore
        ux := uxScore
        trust := trustScore }
    issues := issues
    quickWins := quickWins }

end CucituraCheck


/-!
Model of the standalone route handler (`src/app/api/analyze/route.ts`):
regex-based markup extraction, the PageSpeed client with its
authentication-fallback retry, and the POST pipeline with its degraded
fetch-failure path.  The JS regex scanners are modelled by executable
character-list scanners; where a scanner recurses on a non-structural
suffix it is driven by a fuel argument initialized to the input length,
which bounds the number of scanning steps (each step consumes at least
one character, so the fuel never runs out on the initial call).
-/

namespace Route

open CucituraCheck

/-- Case-insensitive prefix test: does `l` start with the (lower-case)
pattern `pat`, comparing lower-cased characters? -/
def ciStarts (pat l : List Char) : Bool :=
  (l.take pat.length).map lowerChar == pat

/-- Split `l` at the first case-insensitive occurrence of `pat`,
returning the part before the occurrence and the part after it
(models a lazy regex match up to a closing delimiter). -/
def splitAfterCI (pat : List Char) : List Char → Option (List Char × List Char)
  | [] => if pat.isEmpty then some ([], []) else none
  | c :: cs =>
    if ciStarts pat (c :: cs) then some ([], (c :: cs).drop pat.length)
    else
      match splitAfterCI pat cs with
      | some (b, a) => some (c :: b, a)
      | none => none

/-- One global-replace pass for the block regexes
`<script[\s\S]*?<\/script>` and `<style[\s\S]*?<\/style>`: each block
from a case-insensitive `openPat` to the next `closePat` becomes a
single space. -/
def replaceBlocksF (openPat closePat : List Char) : Nat → List Char → List Char
  | 0, l => l
  | _ + 1, [] => []
  | fuel + 1, c :: cs =>
    if ciStarts openPat (c :: cs) then
      match splitAfterCI closePat ((c :: cs).drop openPat.length) with
      | some (_, after) => ' ' :: replaceBlocksF openPat closePat fuel after
      | none => c :: replaceBlocksF openPat closePat fuel cs
    else c :: replaceBlocksF openPat closePat fuel cs

/-- Global replace of `<[^>]+>` by a space. -/
def stripAngleTagsF : Nat → List Char → List Char
  | 0, l => l
  | _ + 1, [] => []
  | fuel + 1, c :: cs =>
    if c = '<' then
      let body := cs.takeWhile (fun x => x ≠ '>')
      match cs.drop body.length with
      | '>' :: tail =>
        if body.isEmpty then c :: stripAngleTagsF fuel cs
        else ' ' :: stripAngleTagsF fuel tail
      | _ => c :: stripAngleTagsF fuel cs
    else c :: stripAngleTagsF fuel cs

/-- Global replace of `\s+` by a single space. -/
def collapseWsF : Nat → List Char → List Char
  | 0, l => l
  | _ + 1, [] => []
  | fuel + 1, c :: cs =>
    if wsChar c then ' ' :: collapseWsF fuel (cs.dropWhile wsChar)
    else c :: collapseWsF fuel cs

/-- `stripTags`: drop script and style blocks, drop all remaining tags,
collapse whitespace runs, trim. -/
def stripTags (html : String) : String :=
  let l1 := replaceBlocksF "<script".data "</script>".data html.data.length html.data
  let l2 := replaceBlocksF "<style".data "</style>".data l1.length l1
  let l3 := stripAngleTagsF l2.length l2
  let l4 := collapseWsF l3.length l3
  String.mk (trimList l4)

/-- The quote characters matched by the `["']` regex classes. -/
def isQuote (c : Char) : Bool :=
  c = '"' || c = Char.ofNat 39

/-- Find the first `<tag[^>]*>([\s\S]*?)</tag>` match (case-insensitive)
and return the captured body. -/
def findTagBlockF (tag : List Char) : Nat → List Char → Option (List Char)
  | 0, _ => none
  | _ + 1, [] => none
  | fuel + 1, c :: cs =>
    if ciStarts ('<' :: tag) (c :: cs) then
      let rest := (c :: cs).drop (tag.length + 1)
      let attrs := rest.takeWhile (fun x => x ≠ '>')
      match rest.drop attrs.length with
      | '>' :: tail =>
        match splitAfterCI ('<' :: '/' :: tag ++ ['>']) tail with
        | some (body, _) => some body
        | none => findTagBlockF tag fuel cs
      | _ => findTagBlockF tag fuel cs
    else findTagBlockF tag fuel cs

/-- `getTagContent`: first tag body, stripped of markup; empty when the
tag is absent. -/
def getTagContent (html tag : String) : String :=
  match findTagBlockF tag.data html.data.length html.data with
  | some body => stripTags (String.mk body)
  | none => ""

/-- All `<tag[^>]*>([\s\S]*?)</tag>` captures in order (models
`matchAll`, resuming after each full match). -/
def allTagBlocksF (tag : List Char) : Nat → List Char → List (List Char)
  | 0, _ => []
  | _ + 1, [] => []
  | fuel + 1, c :: cs =>
    if ciStarts ('<' :: tag) (c :: cs) then
      let rest := (c :: cs).drop (tag.length + 1)
      let attrs := rest.takeWhile (fun x => x ≠ '>')
      match rest.drop attrs.length with
      | '>' :: tail =>
        match splitAfterCI ('<' :: '/' :: tag ++ ['>']) tail with
        | some (body, after) => body :: allTagBlocksF tag fuel after
        | none => allTagBlocksF tag fuel cs
      | _ => allTagBlocksF tag fuel cs
    else allTagBlocksF tag fuel cs

/-- The `h1` field of the route's SEO block: every `<h1>` body stripped,
empty ones dropped, joined with blank lines. -/
def routeH1Text (html : String) : String :=
  let parts := (allTagBlocksF "h1".data html.data.length html.data).map
    (fun b => stripTags (String.mk b))
  String.intercalate "\n\n" (parts.filter (fun s => !s.isEmpty))

/-- Does `l` start with `key=["']value["']` (case-insensitive)? -/
def kvMatchAt (key value l : List Char) : Bool :=
  ciStarts (key ++ ['=']) l &&
  (match l.drop (key.length + 1) with
   | q :: rest =>
     isQuote q && ciStarts value rest &&
     (match rest.drop value.length with
      | q2 :: _ => isQuote q2
      | [] => false)
   | [] => false)

/-- Does `key=["']value["']` occur at offset ≥ 1 of `l` (the `[^>]+`
of the tag regexes requires at least one character before it)? -/
def kvSomewhere (key value : List Char) : List Char → Bool
  | [] => false
  | _ :: cs => kvMatchAt key value cs || kvSomewhere key value cs

/-- Find the first `<openTag[^>]+key=["']value["'][^>]*>` match
(case-insensitive) and return the whole matched tag text. -/
def findTagWithKVF (openTag key value : List Char) : Nat → List Char → Option (List Char)
  | 0, _ => none
  | _ + 1, [] => none
  | fuel + 1, c :: cs =>
    if ciStarts openTag (c :: cs) then
      let rest := (c :: cs).drop openTag.length
      let span0 := rest.takeWhile (fun x => x ≠ '>')
      match rest.drop span0.length with
      | '>' :: _ =>
        if kvSomewhere key value span0 then some (openTag ++ span0 ++ ['>'])
        else findTagWithKVF openTag key value fuel cs
      | _ => findTagWithKVF openTag key value fuel cs
    else findTagWithKVF openTag key value fuel cs

/-- Extract the first `attr=["']([^"']*)["']` capture from a tag text. -/
def extractAttrF (attr : List Char) : Nat → List Char → Option (List Char)
  | 0, _ => none
  | _ + 1, [] => none
  | fuel + 1, c :: cs =>
    if ciStarts (attr ++ ['=']) (c :: cs) then
      match (c :: cs).drop (attr.length + 1) with
      | q :: rest =>
        if isQuote q then
          let body := rest.takeWhile (fun x => !isQuote x)
          match rest.drop body.length with
          | q2 :: _ => if isQuote q2 then some body else extractAttrF attr fuel cs
          | [] => extractAttrF attr fuel cs
        else extractAttrF attr fuel cs
      | [] => extractAttrF attr fuel cs
    else extractAttrF attr fuel cs

/-- `getMetaContent`: content attribute of the first
`<meta ... key="value" ...>` tag, trimmed; empty when absent. -/
def getMetaContent (html key value : String) : String :=
  match findTagWithKVF "<meta".data key.data value.data html.data.length html.data with
  | none => ""
  | some tag =>
    match extractAttrF "content".data tag.length tag with
    | some body => String.mk (trimList body)
    | none => ""

/-- `getLinkHref`: href attribute of the first `<link ... rel="rel" ...>`
tag, trimmed; empty when absent. -/
def getLinkHref (html rel : String) : String :=
  match findTagWithKVF "<link".data "rel".data rel.data html.data.length html.data with
  | none => ""
  | some tag =>
    match extractAttrF "href".data tag.length tag with
    | some body => String.mk (trimList body)
    | none => ""

/-- Word characters for the `\b` boundary in `<tag\b`. -/
def wordChar (c : Char) : Bool :=
  ('a' ≤ c && c ≤ 'z') || ('A' ≤ c && c ≤ 'Z') || ('0' ≤ c && c ≤ '9') || c = '_'

/-- `countTags`: number of `<tag\b` matches (case-insensitive). -/
def countTagsF (tag : List Char) : Nat → List Char → Nat
  | 0, _ => 0
  | _ + 1, [] => 0
  | fuel + 1, c :: cs =>
    if ciStarts ('<' :: tag) (c :: cs) &&
        (match (c :: cs).drop (tag.length + 1) with
         | [] => true
         | d :: _ => !wordChar d) then
      1 + countTagsF tag fuel cs
    else countTagsF tag fuel cs

/-- Route-variant platform fingerprint (`detectPlatform` in route.ts). -/
def detectPlatformR (html : String) : String :=
  let h := strLower html
  if containsSub h "cdn.shopify.com" || containsSub h "shopify" then "Shopify"
  else if containsSub h "wp-content" || containsSub h "wordpress" then "WordPress"
  else "Sconosciuta/Custom"

/-- The SEO block of the route response. -/
structure RouteSeo where
  title : String
  metaDesc : String
  h1 : String
  canonical : String
  robots : String
  ogTitle : String
  ogDesc : String
  ogImage : String
deriving DecidableEq, Repr

/-- The route's SEO extraction: regex probes when markup is present,
literal empty defaults when it is not (`html ? {...} : {...}`). -/
def routeSeo (html : String) : RouteSeo :=
  if html.isEmpty then
    { title := "", metaDesc := "", h1 := "", canonical := "", robots := "",
      ogTitle := "", ogDesc := "", ogImage := "" }
  else
    { title := getTagContent html "title"
      metaDesc := getMetaContent html "name" "description"
      h1 := routeH1Text html
      canonical := getLinkHref html "canonical"
      robots := getMetaContent html "name" "robots"
      ogTitle := getMetaContent html "property" "og:title"
      ogDesc := getMetaContent html "property" "og:description"
      ogImage := getMetaContent html "property" "og:image" }

/-- The route's whole-page-substring trust detection. -/
def routeTrust (html : String) : TrustFindings :=
  let lower := strLower html
  let has := fun (needle : String) => containsSub lower needle
  { contact := has "contatti" || has "contact" || has "chi siamo" || has "about"
    shipping := has "spedizion" || has "shipping" || has "consegna"
    returns := has "resi" || has "reso" || has "returns"
    privacy := has "privacy"
    terms := has "termini" || has "terms" || has "condizioni"
    faq := has "faq" || has "domande frequenti" }

/-- Does `l` start with a `class=["'][^"']*(btn|button)[^"']*["']` match
(case-insensitive)?  Since `button` contains `btn`, matching reduces to
a quoted class value containing `btn`. -/
def btnClassAt (l : List Char) : Bool :=
  ciStarts "class=".data l &&
  (match l.drop 6 with
   | q :: rest =>
     isQuote q &&
     (let body := rest.takeWhile (fun x => !isQuote x)
      containsList (body.map lowerChar) "btn".data && !(rest.drop body.length).isEmpty)
   | [] => false)

/-- Does the `class=["'][^"']*(btn|button)[^"']*["']` regex match
anywhere in `l`? -/
def btnClassSomewhere : List Char → Bool
  | [] => false
  | c :: cs => btnClassAt (c :: cs) || btnClassSomewhere cs

/-- The route's CTA heuristic. -/
def routeHasCTA (html : String) : Bool :=
  let lower := strLower html
  let has := fun (needle : String) => containsSub lower needle
  has "acquista" || has "shop" || has "nuovi arrivi" || has "collezione" || has "scopri"
    || btnClassSomewhere html.data

/-- `ux = hasCTA ? 100 : 92`. -/
def routeUx (hasCTA : Bool) : Int :=
  if hasCTA then 100 else 92

/-- Route-variant `computeTrustScore`: only the shipping flag carries a
penalty. -/
def computeTrustScore (t : TrustFindings) : Int :=
  let score : Int := 100
  let score := if t.shipping then score else score - 15
  max 0 (min 100 score)

/-- Route-variant `weightedTotal`. -/
def weightedTotal (perf seo ux trust : Int) : Int :=
  round ((0.35 : ℚ) * (perf : ℚ) + (0.25 : ℚ) * (seo : ℚ)
    + (0.2 : ℚ) * (ux : ℚ) + (0.2 : ℚ) * (trust : ℚ))

/-- The route's issue rules, in source push order. -/
def routeIssues (seo : RouteSeo) (trust : TrustFindings) (h1Count : Nat)
    (hasCTA : Bool) : List Issue :=
  (if trust.shipping then [] else
    [{ key := "trust.shipping.missing", severity := .high,
       fix := "Aggiungi una pagina Spedizioni e linkala nel footer." }])
  ++ (let titleLen := textLen seo.title
      if 0 < titleLen ∧ titleLen < 25 then
        [{ key := "seo.title.length", severity := .medium,
           fix := "Titolo pagina troppo corto (attuale " ++ toString titleLen ++ " caratteri)." }]
      else [])
  ++ (let mdLen := textLen seo.metaDesc
      if 0 < mdLen ∧ (mdLen < 70 ∨ mdLen > 160) then
        [{ key := "seo.metadesc.length", severity := .medium,
           fix := "Descrizione Google non ottimale (attuale " ++ toString mdLen ++ " caratteri)." }]
      else [])
  ++ (if h1Count > 1 then
        [{ key := "seo.h1.multiple", severity := .low,
           fix := "Troppi titoli principali (H1): mantieni 1 solo H1 per pagina." }]
      else [])
  ++ (if seo.canonical = "" then
        [{ key := "seo.canonical.missing", severity := .low,
           fix := "Manca la canonical (utile per evitare duplicazioni)." }]
      else [])
  ++ (if hasCTA then [] else
        [{ key := "ux.cta.unclear", severity := .medium,
           fix := "CTA poco chiara: aggiungi un bottone principale sopra la piega (es. “Scopri i prodotti”)." }])

/-- The route's severity rank table `{ high: 0, medium: 1, low: 2 }`.
Route issues never carry the `critical` severity; the table has no entry
for it (a JS lookup would yield `undefined`), so its rank here is an
arbitrary unreachable value. -/
def severityRankR : Severity → Nat
  | .high => 0
  | .medium => 1
  | .low => 2
  | .critical => 0

/-- Route quick wins: stable-sort a copy by rank, take 3, project the
remediation text. -/
def routeQuickWins (issues : List Issue) : List String :=
  ((issues.mergeSort fun a b => severityRankR a.severity ≤ severityRankR b.severity).take 3).map
    fun i => i.fix

/-- The raw categories block of a PageSpeed response JSON together with
the `lighthouseResult.finalUrl` field the route reads. -/
structure RouteCats where
  performance : Option ℚ
  seo : Option ℚ
  bestPractices : Option ℚ
  accessibility : Option ℚ
  finalUrl : Option String
deriving DecidableEq, Repr

/-- Route-variant category score: `typeof s === "number" ?
Math.round(s * 100) : undefined`. -/
def routeScore (s : Option ℚ) : Option Int :=
  s.map fun q => round (q * 100)

/-- Outcome of one `attempt` call in the route's `runPageSpeed`:
`{ ok: true, json }` or `{ ok: false, error, json? }`. -/
inductive AttemptResult where
  | success (json : RouteCats)
  | failure (error : String) (json : Option RouteCats)
deriving DecidableEq, Repr

/-- The `ok` flag of an attempt outcome. -/
def AttemptResult.okFlag : AttemptResult → Bool
  | .success _ => true
  | .failure _ _ => false

/-- The `error` field of an attempt outcome (absent on success). -/
def AttemptResult.errText : AttemptResult → Option String
  | .success _ => none
  | .failure e _ => some e

/-- The `json` payload of an attempt outcome. -/
def AttemptResult.json : AttemptResult → Option RouteCats
  | .success j => some j
  | .failure _ j => j

/-- The authentication-failure pattern
`/api key not valid|invalid api key|keyinvalid|not authorized|forbidden/i`. -/
def authErrorPattern (msg : String) : Bool :=
  containsSub (strLower msg) "api key not valid"
    || containsSub (strLower msg) "invalid api key"
    || containsSub (strLower msg) "keyinvalid"
    || containsSub (strLower msg) "not authorized"
    || containsSub (strLower msg) "forbidden"

/-- JS truthiness of the optional API key (`undefined` and `""` are
falsy). -/
def keyTruthy : Option String → Bool
  | none => false
  | some k => !k.isEmpty

/-- The route's `runPageSpeed` with its single keyless retry.  `attempt`
maps the key passed on one attempt to that attempt's outcome; the second
component of the result is the trace of keys attempted, in order. -/
def runPageSpeed (key : Option String) (attempt : Option String → AttemptResult) :
    AttemptResult × List (Option String) :=
  let first := attempt key
  if first.okFlag = false ∧ keyTruthy key = true
      ∧ authErrorPattern (first.errText.getD "") = true then
    let second := attempt none
    (if second.okFlag then second else first, [key, none])
  else (first, [key])

/-- Outcome of the route's page fetch when the fetch promise resolves. -/
structure FetchOk where
  html : String
  status : Nat
  url : String
deriving DecidableEq, Repr

/-- The markup the route analyzes: the fetched body truncated to the
2,000,000-character ceiling, or `""` when the fetch threw (the catch
branch leaves `html` at its `""` initialization). -/
def routeHtml : Option FetchOk → String
  | some f => String.mk (f.html.data.take 2000000)
  | none => ""

/-- The scores block of the route response. -/
structure RouteScoresOut where
  total : Option Int
  performance : Option Int
  seo : Option Int
  ux : Int
  trust : Int
deriving DecidableEq, Repr

/-- The route response body (without the secondary `tech` sub-object —
structured-data, tracking and PWA detection are not modelled). -/
structure RouteReport where
  input : String
  finalUrl : String
  httpStatus : Option Nat
  platform : String
  scores : RouteScoresOut
  pagespeedError : Option String
  seo : RouteSeo
  trust : TrustFindings
  issues : List Issue
  quickWins : List String
deriving DecidableEq, Repr

/-- The route POST pipeline after input normalization: `fetched` is the
outcome of the page fetch (`none` models the catch branch of a thrown
fetch), `key`/`attempt` drive the PageSpeed client. -/
def POSTcore (inputUrl : String) (fetched : Option FetchOk) (key : Option String)
    (attempt : Option String → AttemptResult) : RouteReport :=
  let html := routeHtml fetched
  let httpStatus : Option Nat := fetched.map fun f => f.status
  let finalUrl0 : String :=
    match fetched with
    | some f => if f.url.isEmpty then inputUrl else f.url
    | none => inputUrl
  let ps := (runPageSpeed key attempt).1
  let pagespeedJson : Option RouteCats := if ps.okFlag then ps.json else none
  let pagespeedError : Option String := if ps.okFlag then none else ps.errText
  let perf : Option Int :=
    match pagespeedJson with
    | some c => routeScore c.performance
    | none => none
  let seoScore : Option Int :=
    match pagespeedJson with
    | some c => routeScore c.seo
    | none => none
  let platform := if html.isEmpty then "Sconosciuta/Custom" else detectPlatformR html
  let seo := routeSeo html
  let h1Count := if html.isEmpty then 0 else countTagsF "h1".data html.data.length html.data
  let trust := routeTrust html
  let hasCTA := routeHasCTA html
  let ux := routeUx hasCTA
  let issues := routeIssues seo trust h1Count hasCTA
  let quickWins := routeQuickWins issues
  let trustScore := computeTrustScore trust
  let total : Option Int :=
    match perf, seoScore with
    | some p, some s => some (weightedTotal p s ux trustScore)
    | _, _ => none
  let finalUrl :=
    match pagespeedJson with
    | some c => c.finalUrl.getD finalUrl0
    | none => finalUrl0
  { input := inputUrl
    finalUrl := finalUrl
    httpStatus := httpStatus
    platform := platform
    scores := { total := total, performance := perf, seo := seoScore, ux := ux, trust := trustScore }
    pagespeedError := pagespeedError
    seo := seo
    trust := trust
    issues := issues
    quickWins := quickWins }

/-- A concrete attempt function for exercising the retry policy: the
keyed attempt fails with an authentication-style message, the keyless
attempt succeeds. -/
def sampleAttempt : Option String → AttemptResult
  | some _ => .failure "API key not valid. Please pass a valid API key." none
  | none => .success ⟨some 0.9, some 0.8, some 0.7, some 0.6, none⟩

end Route

/-!
Model of `normalizeUrl` in the analysis core.  The platform's WHATWG
`new URL` / `URL.prototype.toString` pair is modelled for the
http(s)-URL fragment the source exercises: scheme recognition is
case-insensitive, the authority is cut at the first `/`, `?` or `#`,
userinfo (up to the last `@`) is dropped, the port must be digits, and
serialization re-attaches a leading `/` when the path is empty.
Simplifications relative to the engine parser: whitespace anywhere in
the URL is rejected instead of stripped/percent-encoded, the host's
character case is preserved (the engine lower-cases it; the
disallowed-host comparison below lower-cases explicitly, as the source
itself does), and empty or default ports are kept verbatim.
-/

namespace CucituraCheck

/-- A parsed http(s) URL: scheme flag, host, optional port digits, and
the path-query-fragment remainder (beginning with `/`, `?` or `#` when
non-empty). -/
structure UrlParts where
  https : Bool
  host : List Char
  port : Option (List Char)
  rest : List Char
deriving DecidableEq, Repr

/-- Split off a case-insensitive `https://` or `http://` scheme. -/
def schemeSplit (l : List Char) : Option (Bool × List Char) :=
  if (l.take 8).map lowerChar = "https://".data then some (true, l.drop 8)
  else if (l.take 7).map lowerChar = "http://".data then some (false, l.drop 7)
  else none

/-- The characters ending the authority section. -/
def isDelim (c : Char) : Bool :=
  c = '/' || c = '?' || c = '#'

/-- The part of the authority after the last `@` (userinfo dropped). -/
def afterLastAt (l : List Char) : List Char :=
  (l.reverse.takeWhile (fun c => c ≠ '@')).reverse

/-- ASCII digits (the only characters a URL port may contain). -/
def isDigitC (c : Char) : Bool :=
  c = '0' || c = '1' || c = '2' || c = '3' || c = '4'
    || c = '5' || c = '6' || c = '7' || c = '8' || c = '9'

/-- Hostname/port split of the authority section: userinfo up to the
last `@` is dropped, the host is cut at the first `:`, the port must be
all digits, the host must be non-empty (`none` models `new URL`
throwing on a bad authority). -/
def parseHostPort (auth : List Char) : Option (List Char × Option (List Char)) :=
  let hostport := afterLastAt auth
  let host := hostport.takeWhile (fun c => c ≠ ':')
  let portPart := hostport.dropWhile (fun c => c ≠ ':')
  match portPart with
  | [] => if host.isEmpty then none else some (host, none)
  | _ :: p =>
    if p.all isDigitC then
      if host.isEmpty then none else some (host, some p)
    else none

/-- Model of `new URL` on an http(s) URL string (`none` models the
constructor throwing). -/
def parseUrl (l : List Char) : Option UrlParts :=
  match schemeSplit l with
  | none => none
  | some (https, rest) =>
    if rest.any wsChar then none
    else
      match parseHostPort (rest.takeWhile (fun c => !isDelim c)) with
      | none => none
      | some (host, port) =>
        some { https := https, host := host, port := port,
               rest := rest.dropWhile (fun c => !isDelim c) }

/-- The serialized port component (`:` followed by the digits, nothing
when no port is present). -/
def portPartOf (port : Option (List Char)) : List Char :=
  match port with
  | none => []
  | some p => ':' :: p

/-- The serialized path-query-fragment component: a leading `/` is
re-attached when the remainder is empty or starts with `?`/`#`
(`URL.prototype.toString` always emits a path). -/
def pathPartOf (rest : List Char) : List Char :=
  match rest with
  | [] => ['/']
  | c :: cs => if c = '/' then c :: cs else '/' :: (c :: cs)

/-- Model of `URL.prototype.toString` on a parsed http(s) URL. -/
def serializeUrl (u : UrlParts) : List Char :=
  (if u.https then "https://".data else "http://".data)
  ++ u.host
  ++ portPartOf u.port
  ++ pathPartOf u.rest

/-- The scheme test `raw.match(/^https?:\/\//i)`. -/
def hasHttpScheme (l : List Char) : Bool :=
  (schemeSplit l).isSome

/-- `withProto`: prepend `https://` when the scheme test fails. -/
def withProto (raw : List Char) : List Char :=
  if hasHttpScheme raw then raw else "https://".data ++ raw

/-- The disallowed host literals. -/
def disallowedHosts : List (List Char) :=
  ["localhost".data, "127.0.0.1".data, "0.0.0.0".data]

/-- The parse-and-validate tail of `normalizeUrl`, applied to the string
handed to `new URL`. -/
def normalizeParsed (wp : List Char) : Except String String :=
  match parseUrl wp with
  | none => Except.error "URL non valido. Esempio: https://miosito.com"
  | some u =>
    if disallowedHosts.contains (u.host.map lowerChar) then
      Except.error "Dominio non consentito."
    else Except.ok (String.mk (serializeUrl u))

/-- `normalizeUrl`: require a non-empty input (`z.string().min(1)`),
trim, prepend the scheme when missing, parse, reject disallowed hosts,
and return the canonical serialization. -/
def normalizeUrl (input : String) : Except String String :=
  if input.data.isEmpty then
    Except.error "String must contain at least 1 character(s)"
  else normalizeParsed (withProto (trimList input.data))

end CucituraCheck

/-!
Theorems.  One theorem per claim (`claim_Cn...`), preceded by helper
lemmas shared between claims.
-/

open CucituraCheck Route

section Theorems

/-- Claim C1: in `analyzeSite`, when a performance score is available the
total is `round(0.35·performance + 0.30·ux + 0.20·seo + 0.15·trust)`,
otherwise it is `round(0.40·seo + 0.35·ux + 0.25·trust)`; the total is a
total function of the SEO/UX/trust scores (it is defined — an `Int` — in
both branches, in particular whenever the PageSpeed call failed and
`performance` is absent). -/
theorem claim_C1_total_formula (seoIn : SeoFindings) (trust : TrustFindings)
    (cta : Bool) (psi : Option PsiScores) :
    ((analyzeSite seoIn trust cta psi).scores.performance = none →
      (analyzeSite seoIn trust cta psi).scores.total =
        round ((0.4 : ℚ) * (((analyzeSite seoIn trust cta psi).scores.seo : Int) : ℚ)
          + (0.35 : ℚ) * (((analyzeSite seoIn trust cta psi).scores.ux : Int) : ℚ)
          + (0.25 : ℚ) * (((analyzeSite seoIn trust cta psi).scores.trust : Int) : ℚ)))
    ∧ (∀ p : Int, (analyzeSite seoIn trust cta psi).scores.performance = some p →
      (analyzeSite seoIn trust cta psi).scores.total =
        round ((0.35 : ℚ) * (p : ℚ)
          + (0.3 : ℚ) * (((analyzeSite seoIn trust cta psi).scores.ux : Int) : ℚ)
          + (0.2 : ℚ) * (((analyzeSite seoIn trust cta psi).scores.seo : Int) : ℚ)
          + (0.15 : ℚ) * (((analyzeSite seoIn trust cta psi).scores.trust : Int) : ℚ))) := by
  cases psi with
  | none =>
    constructor
    · intro _
      rfl
    · intro p hp
      simp [analyzeSite] at hp
  | some ps =>
    constructor
    · intro h
      simp [analyzeSite] at h
    · intro p hp
      have hp' : ps.performance = p := by simpa [analyzeSite] using hp
      subst hp'
      rfl

/-- Claim C1 witness: a concrete report with the PageSpeed call failed —
the three-term formula applies with seo 64, ux 92, trust 44. -/
theorem claim_C1_total_formula_witness :
    (analyzeSite ⟨"", "", 1, "", "", "", "", ""⟩
        ⟨false, false, false, false, false, false⟩ false none).scores.total =
      round ((0.4 : ℚ) * ((64 : Int) : ℚ) + (0.35 : ℚ) * ((92 : Int) : ℚ)
        + (0.25 : ℚ) * ((44 : Int) : ℚ)) := by
  have h := (claim_C1_total_formula ⟨"", "", 1, "", "", "", "", ""⟩
    ⟨false, false, false, false, false, false⟩ false none).1 rfl
  have hseo : (analyzeSite ⟨"", "", 1, "", "", "", "", ""⟩
      ⟨false, false, false, false, false, false⟩ false none).scores.seo = 64 := by decide
  have hux : (analyzeSite ⟨"", "", 1, "", "", "", "", ""⟩
      ⟨false, false, false, false, false, false⟩ false none).scores.ux = 92 := by decide
  have htrust : (analyzeSite ⟨"", "", 1, "", "", "", "", ""⟩
      ⟨false, false, false, false, false, false⟩ false none).scores.trust = 44 := by decide
  rw [hseo, hux, htrust] at h
  exact h

/-- Evaluation of the C4 scenario report's issue list (empty title, no
description, one H1, no canonical, no OpenGraph, no trust links, no
CTA, PageSpeed unavailable). -/
lemma c4_issues_eval :
    (analyzeSite ⟨"", "", 1, "", "", "", "", ""⟩
        ⟨false, false, false, false, false, false⟩ false none).issues.map
      (fun i => (i.key, i.severity)) =
    [("seo.title.missing", Severity.high), ("seo.metadesc.missing", Severity.high),
     ("trust.contact.missing", Severity.high), ("trust.shipping.missing", Severity.high),
     ("trust.returns.missing", Severity.high), ("trust.privacy.missing", Severity.medium),
     ("ux.cta.unclear", Severity.medium), ("seo.canonical.missing", Severity.low),
     ("seo.opengraph.incomplete", Severity.low), ("trust.terms.missing", Severity.low)] := by
  simp [analyzeSite, sortIssues, seoChecks, trustIssuesOf, uxIssuesOf, List.mergeSort,
    textLen, strTrim, trimList, containsSub, containsList, strLower, rankLe, severityRank,
    quickWinFilter]

/-- Claim C4 counterexample: in the scenario of the claim the issue list
does NOT include all six `trust.<category>.missing` entries — no issue
with key `trust.faq.missing` exists at all (the source synthesizes trust
issues for five categories only), so the claim as stated is false. -/
theorem claim_C4_counterexample :
    ((analyzeSite ⟨"", "", 1, "", "", "", "", ""⟩
        ⟨false, false, false, false, false, false⟩ false none).issues.map
      (fun i => i.key)).contains "trust.faq.missing" = false := by
  simp [analyzeSite, sortIssues, seoChecks, trustIssuesOf, uxIssuesOf, List.mergeSort,
    textLen, strTrim, trimList, containsSub, containsList, strLower, rankLe, severityRank,
    quickWinFilter]

/-- Claim C4 (amended): in the scenario the issue list consists exactly
of `seo.title.missing`(high), `seo.metadesc.missing`(high), the FIVE
trust entries — contact/shipping/returns (high), privacy (medium),
terms (low); no faq issue exists — `ux.cta.unclear`(medium),
`seo.canonical.missing`(low) and `seo.opengraph.incomplete`(low), in
severity-sorted order, and the trust score is 100 − (3·15 + 8 + 3) = 44. -/
theorem claim_C4_amended :
    (analyzeSite ⟨"", "", 1, "", "", "", "", ""⟩
        ⟨false, false, false, false, false, false⟩ false none).issues.map
      (fun i => (i.key, i.severity)) =
    [("seo.title.missing", Severity.high), ("seo.metadesc.missing", Severity.high),
     ("trust.contact.missing", Severity.high), ("trust.shipping.missing", Severity.high),
     ("trust.returns.missing", Severity.high), ("trust.privacy.missing", Severity.medium),
     ("ux.cta.unclear", Severity.medium), ("seo.canonical.missing", Severity.low),
     ("seo.opengraph.incomplete", Severity.low), ("trust.terms.missing", Severity.low)]
    ∧ (analyzeSite ⟨"", "", 1, "", "", "", "", ""⟩
        ⟨false, false, false, false, false, false⟩ false none).scores.trust = 44 :=
  ⟨c4_issues_eval, by decide⟩

/-- Claim C10: when the PageSpeed HTTP call succeeds, every category
score is a defined integer — a category absent from the response JSON
yields score 0 (not an absent field).  In particular a successful
response lacking the performance category yields `performance = 0`, so
`analyzeSite` applies the four-term weighting with performance
contributing `0.35 · 0` instead of falling back to the three-term
formula. -/
theorem claim_C10_absent_category_is_zero (c : RawCategories) (seoIn : SeoFindings)
    (trust : TrustFindings) (cta : Bool) (hperf : c.performance = none) :
    (runPageSpeedScores c).performance = 0
    ∧ (c.seo = none → (runPageSpeedScores c).seo = 0)
    ∧ (c.bestPractices = none → (runPageSpeedScores c).bestPractices = 0)
    ∧ (c.accessibility = none → (runPageSpeedScores c).accessibility = 0)
    ∧ (analyzeSite seoIn trust cta (some (runPageSpeedScores c))).scores.performance = some 0
    ∧ (analyzeSite seoIn trust cta (some (runPageSpeedScores c))).scores.total =
      round ((0.35 : ℚ) * ((0 : Int) : ℚ)
        + (0.3 : ℚ) * (((analyzeSite seoIn trust cta
            (some (runPageSpeedScores c))).scores.ux : Int) : ℚ)
        + (0.2 : ℚ) * (((analyzeSite seoIn trust cta
            (some (runPageSpeedScores c))).scores.seo : Int) : ℚ)
        + (0.15 : ℚ) * (((analyzeSite seoIn trust cta
            (some (runPageSpeedScores c))).scores.trust : Int) : ℚ)) := by
  have h0 : (runPageSpeedScores c).performance = 0 := by
    simp [runPageSpeedScores, psCategoryScore, hperf]
  refine ⟨h0, ?_, ?_, ?_, ?_, ?_⟩
  · intro h; simp [runPageSpeedScores, psCategoryScore, h]
  · intro h; simp [runPageSpeedScores, psCategoryScore, h]
  · intro h; simp [runPageSpeedScores, psCategoryScore, h]
  · simp [analyzeSite, h0]
  · simp [analyzeSite, h0]

/-- Claim C10 witness: a response with only the seo category present. -/
theorem claim_C10_witness :
    (runPageSpeedScores ⟨none, some 0.8, none, none⟩).performance = 0
    ∧ (analyzeSite ⟨"", "", 1, "", "", "", "", ""⟩
        ⟨false, false, false, false, false, false⟩ false
        (some (runPageSpeedScores ⟨none, some 0.8, none, none⟩))).scores.performance =
      some 0 := by
  have h := claim_C10_absent_category_is_zero ⟨none, some 0.8, none, none⟩
    ⟨"", "", 1, "", "", "", "", ""⟩ ⟨false, false, false, false, false, false⟩ false rfl
  exact ⟨h.1, h.2.2.2.2.1⟩

/-- The issue comparator is transitive. -/
lemma rankLe_trans : ∀ a b c : Issue, rankLe a b → rankLe b c → rankLe a c := by
  intro a b c hab hbc
  simp only [rankLe, decide_eq_true_eq] at hab hbc ⊢
  omega

/-- The issue comparator is total. -/
lemma rankLe_total : ∀ a b : Issue, rankLe a b || rankLe b a := by
  intro a b
  simp only [rankLe, Bool.or_eq_true, decide_eq_true_eq]
  omega

/-- The sorted issue list is pairwise ordered by severity rank. -/
lemma sortIssues_sorted (l : List Issue) :
    (sortIssues l).Pairwise fun a b => severityRank a.severity ≤ severityRank b.severity := by
  have h := @List.sorted_mergeSort _ rankLe rankLe_trans rankLe_total l
  exact h.imp fun hab => by simpa [rankLe] using hab

/-- The sort is a permutation. -/
lemma sortIssues_perm (l : List Issue) : (sortIssues l).Perm l :=
  List.mergeSort_perm l rankLe

/-- Stability of the sort, phrased per rank: restricting the sorted list
to any one severity rank gives exactly the restriction of the input, in
input order. -/
lemma sortIssues_filter_rank (l : List Issue) (k : Nat) :
    (sortIssues l).filter (fun i => severityRank i.severity == k)
      = l.filter (fun i => severityRank i.severity == k) := by
  set p := fun i : Issue => severityRank i.severity == k with hp
  have hpair : (l.filter p).Pairwise fun a b => rankLe a b = true := by
    apply List.pairwise_of_forall_mem_list
    intro a ha b hb
    have ha' := List.of_mem_filter ha
    have hb' := List.of_mem_filter hb
    simp only [hp, beq_iff_eq] at ha' hb'
    simp [rankLe, ha', hb']
  have hsub : List.Sublist (l.filter p) (sortIssues l) :=
    List.sublist_mergeSort rankLe_trans rankLe_total hpair (List.filter_sublist l)
  have hsub2 : List.Sublist (l.filter p) ((sortIssues l).filter p) := by
    have h1 := List.Sublist.filter p hsub
    rwa [List.filter_filter, show ((fun i => p i && p i) = p) by funext i; cases h : p i <;> simp [h]] at h1
  have hlen : ((sortIssues l).filter p).length = (l.filter p).length :=
    ((sortIssues_perm l).filter p).length_eq
  exact ((List.Sublist.eq_of_length_le hsub2 (le_of_eq hlen))).symm

/-- Claim C6: for every report, the issue list is sorted ascending by
severity rank (critical < high < medium < low), and ties preserve
discovery order — per rank, the sorted list restricts to exactly the
concatenation SEO issues ++ trust issues ++ UX issues, in that order. -/
theorem claim_C6_issues_sorted_stable (seoIn : SeoFindings) (trust : TrustFindings)
    (cta : Bool) (psi : Option PsiScores) :
    ((analyzeSite seoIn trust cta psi).issues.Pairwise
      fun a b => severityRank a.severity ≤ severityRank b.severity)
    ∧ ∀ k : Nat,
      (analyzeSite seoIn trust cta psi).issues.filter
          (fun i => severityRank i.severity == k)
        = (seoChecks seoIn ++ trustIssuesOf trust ++ uxIssuesOf cta).filter
          (fun i => severityRank i.severity == k) := by
  constructor
  · exact sortIssues_sorted (seoChecks seoIn ++ trustIssuesOf trust ++ uxIssuesOf cta)
  · intro k
    exact sortIssues_filter_rank (seoChecks seoIn ++ trustIssuesOf trust ++ uxIssuesOf cta) k

/-- Quick wins are a subsequence of the issue remediation texts. -/
lemma qw_sublist (l : List Issue) :
    List.Sublist (((l.filter quickWinFilter).take 7).map fun i => i.fix)
      (l.map fun i => i.fix) :=
  List.Sublist.map _ ((List.take_sublist _ _).trans (List.filter_sublist l))

/-- Quick wins are capped at 7. -/
lemma qw_len (l : List Issue) :
    (((l.filter quickWinFilter).take 7).map fun i => i.fix).length ≤ 7 := by
  simp [List.length_take]

/-- Every quick win is the remediation of a non-low issue of the list. -/
lemma qw_mem (l : List Issue) :
    ∀ w ∈ ((l.filter quickWinFilter).take 7).map fun i => i.fix,
      ∃ i ∈ l, i.fix = w ∧ i.severity ≠ Severity.low := by
  intro w hw
  obtain ⟨i, hi, hfix⟩ := List.mem_map.mp hw
  have hi' : i ∈ l.filter quickWinFilter := List.mem_of_mem_take hi
  refine ⟨i, List.mem_of_mem_filter hi', hfix, ?_⟩
  have hq := List.of_mem_filter hi'
  intro hlow
  simp [quickWinFilter, hlow] at hq
  rcases hq with h | h | h <;> exact absurd h (by decide)

/-- The issues underlying the quick wins appear in severity order. -/
lemma qw_pairwise (l : List Issue)
    (h : l.Pairwise fun a b => severityRank a.severity ≤ severityRank b.severity) :
    ((l.filter quickWinFilter).take 7).Pairwise
      fun a b => severityRank a.severity ≤ severityRank b.severity :=
  h.sublist ((List.take_sublist _ _).trans (List.filter_sublist l))

/-- Claim C5: for every report, `quickWins` is the projection
`map fix (take 7 (filter severity-in-{critical,high,medium} issues))`:
a subsequence of the issues' remediation texts, of length at most 7,
containing only remediations of non-low issues, in severity order. -/
theorem claim_C5_quickwins_projection (seoIn : SeoFindings) (trust : TrustFindings)
    (cta : Bool) (psi : Option PsiScores) :
    List.Sublist (analyzeSite seoIn trust cta psi).quickWins
      ((analyzeSite seoIn trust cta psi).issues.map fun i => i.fix)
    ∧ (analyzeSite seoIn trust cta psi).quickWins.length ≤ 7
    ∧ (∀ w ∈ (analyzeSite seoIn trust cta psi).quickWins,
        ∃ i ∈ (analyzeSite seoIn trust cta psi).issues,
          i.fix = w ∧ i.severity ≠ Severity.low)
    ∧ (((analyzeSite seoIn trust cta psi).issues.filter quickWinFilter).take 7).Pairwise
        (fun a b => severityRank a.severity ≤ severityRank b.severity)
    ∧ (analyzeSite seoIn trust cta psi).quickWins =
        (((analyzeSite seoIn trust cta psi).issues.filter quickWinFilter).take 7).map
          fun i => i.fix := by
  refine ⟨?_, ?_, ?_, ?_, rfl⟩
  · exact qw_sublist _
  · exact qw_len _
  · exact qw_mem _
  · exact qw_pairwise _ (sortIssues_sorted _)

/-- Integer clamping lands in [0, 100]. -/
lemma clamp_bounds (x : Int) : 0 ≤ max 0 (min 100 x) ∧ max 0 (min 100 x) ≤ 100 := by
  constructor <;> omega

/-- The penalty score is clamped to [0, 100]. -/
lemma scoreFromIssues_bounds (l : List Issue) :
    0 ≤ scoreFromIssues l ∧ scoreFromIssues l ≤ 100 := by
  unfold scoreFromIssues
  exact clamp_bounds _

/-- Rounding a rational in [0, 100] lands in [0, 100]. -/
lemma round_bounds {q : ℚ} (h0 : 0 ≤ q) (h1 : q ≤ 100) :
    0 ≤ round q ∧ round q ≤ 100 := by
  constructor
  · rw [round_eq]
    exact Int.floor_nonneg.mpr (by linarith)
  · calc round q ≤ round (100 : ℚ) := by
          rw [round_eq, round_eq]
          exact Int.floor_le_floor (by linarith)
      _ = 100 := by norm_num

/-- The four-term weighted total of [0, 100] scores lies in [0, 100]. -/
lemma total4_bounds {p u s t : Int} (hp : 0 ≤ p) (hp' : p ≤ 100) (hu : 0 ≤ u)
    (hu' : u ≤ 100) (hs : 0 ≤ s) (hs' : s ≤ 100) (ht : 0 ≤ t) (ht' : t ≤ 100) :
    0 ≤ round ((0.35 : ℚ) * (p : ℚ) + (0.3 : ℚ) * (u : ℚ)
        + (0.2 : ℚ) * (s : ℚ) + (0.15 : ℚ) * (t : ℚ))
    ∧ round ((0.35 : ℚ) * (p : ℚ) + (0.3 : ℚ) * (u : ℚ)
        + (0.2 : ℚ) * (s : ℚ) + (0.15 : ℚ) * (t : ℚ)) ≤ 100 := by
  have hpq : (0 : ℚ) ≤ (p : ℚ) := by exact_mod_cast hp
  have hpq' : (p : ℚ) ≤ 100 := by exact_mod_cast hp'
  have huq : (0 : ℚ) ≤ (u : ℚ) := by exact_mod_cast hu
  have huq' : (u : ℚ) ≤ 100 := by exact_mod_cast hu'
  have hsq : (0 : ℚ) ≤ (s : ℚ) := by exact_mod_cast hs
  have hsq' : (s : ℚ) ≤ 100 := by exact_mod_cast hs'
  have htq : (0 : ℚ) ≤ (t : ℚ) := by exact_mod_cast ht
  have htq' : (t : ℚ) ≤ 100 := by exact_mod_cast ht'
  exact round_bounds (by nlinarith) (by nlinarith)

/-- The three-term weighted total of [0, 100] scores lies in [0, 100]. -/
lemma total3_bounds {u s t : Int} (hu : 0 ≤ u) (hu' : u ≤ 100) (hs : 0 ≤ s)
    (hs' : s ≤ 100) (ht : 0 ≤ t) (ht' : t ≤ 100) :
    0 ≤ round ((0.4 : ℚ) * (s : ℚ) + (0.35 : ℚ) * (u : ℚ) + (0.25 : ℚ) * (t : ℚ))
    ∧ round ((0.4 : ℚ) * (s : ℚ) + (0.35 : ℚ) * (u : ℚ) + (0.25 : ℚ) * (t : ℚ)) ≤ 100 := by
  have huq : (0 : ℚ) ≤ (u : ℚ) := by exact_mod_cast hu
  have huq' : (u : ℚ) ≤ 100 := by exact_mod_cast hu'
  have hsq : (0 : ℚ) ≤ (s : ℚ) := by exact_mod_cast hs
  have hsq' : (s : ℚ) ≤ 100 := by exact_mod_cast hs'
  have htq : (0 : ℚ) ≤ (t : ℚ) := by exact_mod_cast ht
  have htq' : (t : ℚ) ≤ 100 := by exact_mod_cast ht'
  exact round_bounds (by nlinarith) (by nlinarith)

/-- A PageSpeed category score normalized from a raw 0–1 score (or an
absent one) lies in [0, 100]. -/
lemma psCategoryScore_bounds (s : Option ℚ)
    (h : ∀ x, s = some x → 0 ≤ x ∧ x ≤ 1) :
    0 ≤ psCategoryScore s ∧ psCategoryScore s ≤ 100 := by
  cases s with
  | none =>
    constructor <;> simp [psCategoryScore]
  | some q =>
    obtain ⟨h0, h1⟩ := h q rfl
    unfold psCategoryScore
    simp only [Option.getD_some]
    exact round_bounds (by nlinarith) (by nlinarith)

/-- Claim C7: every composite score of a report — total, seo, ux, trust,
and performance when present — lies in [0, 100], provided the raw
PageSpeed category scores respect the API's 0–1 contract.  The
per-dimension penalty scores are clamped, and the weighted total of
in-range scores stays in range. -/
theorem claim_C7_scores_in_range (seoIn : SeoFindings) (trust : TrustFindings)
    (cta : Bool) (c : Option RawCategories)
    (hc : ∀ rc, c = some rc →
      (∀ x, rc.performance = some x → 0 ≤ x ∧ x ≤ 1) ∧
      (∀ x, rc.seo = some x → 0 ≤ x ∧ x ≤ 1) ∧
      (∀ x, rc.bestPractices = some x → 0 ≤ x ∧ x ≤ 1) ∧
      (∀ x, rc.accessibility = some x → 0 ≤ x ∧ x ≤ 1)) :
    (0 ≤ (analyzeSite seoIn trust cta (c.map runPageSpeedScores)).scores.total
      ∧ (analyzeSite seoIn trust cta (c.map runPageSpeedScores)).scores.total ≤ 100)
    ∧ (0 ≤ (analyzeSite seoIn trust cta (c.map runPageSpeedScores)).scores.seo
      ∧ (analyzeSite seoIn trust cta (c.map runPageSpeedScores)).scores.seo ≤ 100)
    ∧ (0 ≤ (analyzeSite seoIn trust cta (c.map runPageSpeedScores)).scores.ux
      ∧ (analyzeSite seoIn trust cta (c.map runPageSpeedScores)).scores.ux ≤ 100)
    ∧ (0 ≤ (analyzeSite seoIn trust cta (c.map runPageSpeedScores)).scores.trust
      ∧ (analyzeSite seoIn trust cta (c.map runPageSpeedScores)).scores.trust ≤ 100)
    ∧ (∀ p : Int, (analyzeSite seoIn trust cta (c.map runPageSpeedScores)).scores.performance
        = some p → 0 ≤ p ∧ p ≤ 100) := by
  have hux := scoreFromIssues_bounds (uxIssuesOf cta)
  have htrust := scoreFromIssues_bounds (trustIssuesOf trust)
  cases c with
  | none =>
    have hseo := scoreFromIssues_bounds (seoChecks seoIn)
    refine ⟨?_, hseo, hux, htrust, ?_⟩
    · exact total3_bounds hux.1 hux.2 hseo.1 hseo.2 htrust.1 htrust.2
    · intro p hp
      simp [analyzeSite] at hp
  | some rc =>
    obtain ⟨hcp, hcs, _, _⟩ := hc rc rfl
    have hperf := psCategoryScore_bounds rc.performance hcp
    have hseo := psCategoryScore_bounds rc.seo hcs
    refine ⟨?_, hseo, hux, htrust, ?_⟩
    · exact total4_bounds hperf.1 hperf.2 hux.1 hux.2 hseo.1 hseo.2 htrust.1 htrust.2
    · intro p hp
      have hp' : psCategoryScore rc.performance = p := by
        simpa [analyzeSite, runPageSpeedScores] using hp
      rw [← hp']
      exact hperf

/-- Claim C7 witness: concrete report with a present performance
category at raw score 0.93. -/
theorem claim_C7_scores_in_range_witness :
    (0 ≤ (analyzeSite ⟨"", "", 1, "", "", "", "", ""⟩
        ⟨false, false, false, false, false, false⟩ false
        ((some ⟨some 0.93, some 0.8, some 0.7, some 0.6⟩).map runPageSpeedScores)).scores.total
      ∧ (analyzeSite ⟨"", "", 1, "", "", "", "", ""⟩
        ⟨false, false, false, false, false, false⟩ false
        ((some ⟨some 0.93, some 0.8, some 0.7, some 0.6⟩).map runPageSpeedScores)).scores.total ≤ 100)
    ∧ (0 ≤ (analyzeSite ⟨"", "", 1, "", "", "", "", ""⟩
        ⟨false, false, false, false, false, false⟩ false
        ((some ⟨some 0.93, some 0.8, some 0.7, some 0.6⟩).map runPageSpeedScores)).scores.seo
      ∧ (analyzeSite ⟨"", "", 1, "", "", "", "", ""⟩
        ⟨false, false, false, false, false, false⟩ false
        ((some ⟨some 0.93, some 0.8, some 0.7, some 0.6⟩).map runPageSpeedScores)).scores.seo ≤ 100)
    ∧ (0 ≤ (analyzeSite ⟨"", "", 1, "", "", "", "", ""⟩
        ⟨false, false, false, false, false, false⟩ false
        ((some ⟨some 0.93, some 0.8, some 0.7, some 0.6⟩).map runPageSpeedScores)).scores.ux
      ∧ (analyzeSite ⟨"", "", 1, "", "", "", "", ""⟩
        ⟨false, false, false, false, false, false⟩ false
        ((some ⟨some 0.93, some 0.8, some 0.7, some 0.6⟩).map runPageSpeedScores)).scores.ux ≤ 100)
    ∧ (0 ≤ (analyzeSite ⟨"", "", 1, "", "", "", "", ""⟩
        ⟨false, false, false, false, false, false⟩ false
        ((some ⟨some 0.93, some 0.8, some 0.7, some 0.6⟩).map runPageSpeedScores)).scores.trust
      ∧ (analyzeSite ⟨"", "", 1, "", "", "", "", ""⟩
        ⟨false, false, false, false, false, false⟩ false
        ((some ⟨some 0.93, some 0.8, some 0.7, some 0.6⟩).map runPageSpeedScores)).scores.trust ≤ 100)
    ∧ (∀ p : Int, (analyzeSite ⟨"", "", 1, "", "", "", "", ""⟩
        ⟨false, false, false, false, false, false⟩ false
        ((some ⟨some 0.93, some 0.8, some 0.7, some 0.6⟩).map runPageSpeedScores)).scores.performance
        = some p → 0 ≤ p ∧ p ≤ 100) :=
  claim_C7_scores_in_range ⟨"", "", 1, "", "", "", "", ""⟩
    ⟨false, false, false, false, false, false⟩ false
    (some ⟨some 0.93, some 0.8, some 0.7, some 0.6⟩)
    (by
      intro rc h
      injection h with h
      subst h
      refine ⟨?_, ?_, ?_, ?_⟩ <;>
        exact fun x hx => by injection hx with hx; subst hx; constructor <;> norm_num)

/-- Claim C2: the PageSpeed retry policy.  If the first attempt fails,
a key was supplied (truthy), and the failure message matches the
authentication pattern, exactly one retry is made with the key omitted
(attempt trace `[key, none]`); when the retry succeeds its result is
used and carries no error; when it fails the first failure is returned.
In every other case the first attempt is final (trace `[key]`). -/
theorem claim_C2_retry_policy (key : Option String)
    (attempt : Option String → AttemptResult) :
    (¬ ((attempt key).okFlag = false ∧ keyTruthy key = true
        ∧ authErrorPattern (((attempt key).errText).getD "") = true) →
      runPageSpeed key attempt = (attempt key, [key]))
    ∧ (((attempt key).okFlag = false ∧ keyTruthy key = true
        ∧ authErrorPattern (((attempt key).errText).getD "") = true) →
      (runPageSpeed key attempt).2 = [key, none]
      ∧ ((attempt none).okFlag = true →
          (runPageSpeed key attempt).1 = attempt none
          ∧ ((runPageSpeed key attempt).1).errText = none)
      ∧ ((attempt none).okFlag = false →
          (runPageSpeed key attempt).1 = attempt key)) := by
  constructor
  · intro h
    simp only [runPageSpeed]
    rw [if_neg h]
  · intro h
    refine ⟨?_, ?_, ?_⟩
    · simp only [runPageSpeed]
      rw [if_pos h]
    · intro h2
      simp only [runPageSpeed]
      rw [if_pos h]
      constructor
      · simp [h2]
      · cases ha : attempt none with
        | success j => simp [ha, AttemptResult.okFlag, AttemptResult.errText]
        | failure e j => rw [ha] at h2; simp [AttemptResult.okFlag] at h2
    · intro h2
      simp only [runPageSpeed]
      rw [if_pos h]
      simp [h2]

/-- Claim C2 witness: a keyed attempt failing with an
authentication-style message followed by a successful keyless retry —
the trace shows exactly one keyless retry, whose result is used with no
error. -/
theorem claim_C2_retry_policy_witness :
    (runPageSpeed (some "SECRET") sampleAttempt).2 = [some "SECRET", none]
    ∧ (runPageSpeed (some "SECRET") sampleAttempt).1 = sampleAttempt none
    ∧ ((runPageSpeed (some "SECRET") sampleAttempt).1).errText = none := by
  have h := (claim_C2_retry_policy (some "SECRET") sampleAttempt).2 (by decide)
  have h2 := h.2.1 (by decide)
  exact ⟨h.1, h2.1, h2.2⟩

/-- Claim C3: when the page fetch throws (network/transport failure),
the route still produces a report, built from empty markup: the platform
is reported as unknown, every SEO field is empty, every trust flag and
the CTA finding are false, and the UX score takes its no-CTA value.
The PageSpeed outcome is arbitrary — the degraded fields do not depend
on it. -/
theorem claim_C3_fetch_failure_degrades (inputUrl : String) (key : Option String)
    (attempt : Option String → AttemptResult) :
    routeHtml none = ""
    ∧ (POSTcore inputUrl none key attempt).platform = "Sconosciuta/Custom"
    ∧ (POSTcore inputUrl none key attempt).seo =
        ⟨"", "", "", "", "", "", "", ""⟩
    ∧ (POSTcore inputUrl none key attempt).trust =
        ⟨false, false, false, false, false, false⟩
    ∧ routeHasCTA "" = false
    ∧ (POSTcore inputUrl none key attempt).scores.ux = 92
    ∧ (POSTcore inputUrl none key attempt).httpStatus = none
    ∧ (POSTcore inputUrl none key attempt).input = inputUrl :=
  ⟨rfl, rfl, rfl, rfl, rfl, rfl, rfl, rfl⟩

/-- A list none of whose elements satisfies `p` has `any p = false`. -/
lemma any_false_of_all {α} {p : α → Bool} {l : List α} (h : ∀ c ∈ l, p c = false) :
    l.any p = false := by
  cases ha : l.any p
  · rfl
  · obtain ⟨x, hx, hpx⟩ := List.any_eq_true.mp ha
    rw [h x hx] at hpx
    cases hpx

/-- `any p = false` gives `p = false` on every element. -/
lemma all_of_any_false {α} {p : α → Bool} {l : List α} (h : l.any p = false) :
    ∀ c ∈ l, p c = false := by
  intro x hx
  cases hp : p x
  · rfl
  · have : l.any p = true := List.any_eq_true.mpr ⟨x, hx, hp⟩
    rw [h] at this
    cases this

/-- `takeWhile` keeps a list all of whose elements satisfy `p`. -/
lemma takeWhile_eq_self_of_all {α} {p : α → Bool} :
    ∀ {l : List α}, (∀ c ∈ l, p c = true) → l.takeWhile p = l
  | [], _ => rfl
  | c :: cs, h => by
    have hc := h c (List.mem_cons_self c cs)
    simp only [List.takeWhile_cons, hc, if_true]
    rw [takeWhile_eq_self_of_all fun x hx => h x (List.mem_cons_of_mem c hx)]

/-- `dropWhile` drops a list all of whose elements satisfy `p`. -/
lemma dropWhile_eq_nil_of_all {α} {p : α → Bool} :
    ∀ {l : List α}, (∀ c ∈ l, p c = true) → l.dropWhile p = []
  | [], _ => rfl
  | c :: cs, h => by
    have hc := h c (List.mem_cons_self c cs)
    simp only [List.dropWhile_cons, hc, if_true]
    exact dropWhile_eq_nil_of_all fun x hx => h x (List.mem_cons_of_mem c hx)

/-- `takeWhile` over an append whose left part satisfies `p` throughout. -/
lemma takeWhile_append_all {α} {p : α → Bool} :
    ∀ {a : List α} (b : List α), (∀ c ∈ a, p c = true) →
      (a ++ b).takeWhile p = a ++ b.takeWhile p
  | [], b, _ => rfl
  | c :: cs, b, h => by
    have hc := h c (List.mem_cons_self c cs)
    simp only [List.cons_append, List.takeWhile_cons, hc, if_true]
    rw [takeWhile_append_all b fun x hx => h x (List.mem_cons_of_mem c hx)]

/-- `dropWhile` over an append whose left part satisfies `p` throughout. -/
lemma dropWhile_append_all {α} {p : α → Bool} :
    ∀ {a : List α} (b : List α), (∀ c ∈ a, p c = true) →
      (a ++ b).dropWhile p = b.dropWhile p
  | [], _, _ => rfl
  | c :: cs, b, h => by
    have hc := h c (List.mem_cons_self c cs)
    simp only [List.cons_append, List.dropWhile_cons, hc, if_true]
    exact dropWhile_append_all b fun x hx => h x (List.mem_cons_of_mem c hx)

/-- `dropWhile` keeps a list none of whose elements satisfies `p`. -/
lemma dropWhile_eq_self_of_none {α} {p : α → Bool} {l : List α}
    (h : ∀ c ∈ l, p c = false) : l.dropWhile p = l := by
  cases l with
  | nil => rfl
  | cons c cs =>
    have hc := h c (List.mem_cons_self c cs)
    simp only [List.dropWhile_cons, hc]
    simp

/-- `trimList` keeps a whitespace-free list. -/
lemma trimList_eq_self {l : List Char} (h : ∀ c ∈ l, wsChar c = false) :
    trimList l = l := by
  unfold trimList
  rw [dropWhile_eq_self_of_none h,
    dropWhile_eq_self_of_none fun c hc => h c (List.mem_reverse.mp hc),
    List.reverse_reverse]

/-- Digits are not whitespace, not authority delimiters, and not `@`. -/
lemma digit_facts {c : Char} (h : isDigitC c = true) :
    wsChar c = false ∧ isDelim c = false ∧ c ≠ '@' ∧ c ≠ ':' := by
  simp only [isDigitC, Bool.or_eq_true, decide_eq_true_eq] at h
  rcases h with (((((((((h | h) | h) | h) | h) | h) | h) | h) | h) | h) <;> subst h <;>
    exact ⟨rfl, rfl, by decide, by decide⟩

/-- Splitting the scheme off `https://` followed by anything. -/
lemma schemeSplit_https (t : List Char) :
    schemeSplit ("https://".data ++ t) = some (true, t) := rfl

/-- Splitting the scheme off `http://` followed by anything. -/
lemma schemeSplit_http (t : List Char) :
    schemeSplit ("http://".data ++ t) = some (false, t) := by
  cases t with
  | nil => rfl
  | cons c cs =>
    have h1 : ((('h' :: 't' :: 't' :: 'p' :: ':' :: '/' :: '/' :: c :: cs).take 8).map lowerChar
        ≠ "https://".data) := by
      intro h
      simp only [List.take_succ_cons, List.take_zero, List.map_cons, List.map_nil,
        show "https://".data = ['h','t','t','p','s',':','/','/'] from rfl,
        List.cons.injEq] at h
      exact absurd h.2.2.2.2.1 (by decide)
    have h2 : ((('h' :: 't' :: 't' :: 'p' :: ':' :: '/' :: '/' :: c :: cs).take 7).map lowerChar
        = "http://".data) := rfl
    show schemeSplit ('h' :: 't' :: 't' :: 'p' :: ':' :: '/' :: '/' :: c :: cs) = _
    unfold schemeSplit
    rw [if_neg h1, if_pos h2]
    rfl

/-- A successful parse means the scheme test succeeds. -/
lemma hasHttpScheme_of_parse {l : List Char} {u : UrlParts}
    (h : parseUrl l = some u) : hasHttpScheme l = true := by
  unfold hasHttpScheme
  simp only [parseUrl] at h
  split at h
  · cases h
  · rename_i pr hs
    rw [hs]
    rfl

/-- The serialized path component always starts with `/`. -/
lemma pathPartOf_head (rest : List Char) : ∃ t, pathPartOf rest = '/' :: t := by
  cases rest with
  | nil => exact ⟨[], rfl⟩
  | cons c cs =>
    by_cases h : c = '/'
    · subst h
      exact ⟨cs, by simp [pathPartOf]⟩
    · exact ⟨c :: cs, by simp [pathPartOf, h]⟩

/-- Re-serializing a serialized path changes nothing. -/
lemma pathPartOf_idem (rest : List Char) :
    pathPartOf (pathPartOf rest) = pathPartOf rest := by
  obtain ⟨t, ht⟩ := pathPartOf_head rest
  rw [ht]
  simp [pathPartOf]

/-- The serialized path of a whitespace-free remainder is
whitespace-free. -/
lemma pathPartOf_ws {rest : List Char} (h : ∀ c ∈ rest, wsChar c = false) :
    ∀ c ∈ pathPartOf rest, wsChar c = false := by
  intro c hc
  cases rest with
  | nil =>
    simp only [pathPartOf, List.mem_singleton] at hc
    subst hc
    rfl
  | cons d ds =>
    simp only [pathPartOf] at hc
    by_cases hd : d = '/'
    · rw [if_pos hd] at hc
      exact h c hc
    · rw [if_neg hd] at hc
      rcases List.mem_cons.mp hc with h1 | h1
      · subst h1
        rfl
      · exact h c h1

/-- Members of `afterLastAt l` come from `l` and are not `@`. -/
lemma mem_afterLastAt {c : Char} {l : List Char} (h : c ∈ afterLastAt l) :
    c ∈ l ∧ c ≠ '@' := by
  unfold afterLastAt at h
  rw [List.mem_reverse] at h
  refine ⟨List.mem_reverse.mp ((List.takeWhile_sublist _).subset h), ?_⟩
  have h1 := List.mem_takeWhile_imp h
  simpa using h1

/-- `afterLastAt` keeps an `@`-free list. -/
lemma afterLastAt_eq_self {l : List Char} (h : ∀ c ∈ l, c ≠ '@') :
    afterLastAt l = l := by
  unfold afterLastAt
  rw [takeWhile_eq_self_of_all fun c hc => decide_eq_true (h c (List.mem_reverse.mp hc)),
    List.reverse_reverse]

/-- Invariants of a successful authority parse: the host is non-empty,
its characters come from the authority and contain no `:` or `@`, and
the port is all digits. -/
lemma parseHostPort_inv {auth host : List Char} {port : Option (List Char)}
    (h : parseHostPort auth = some (host, port)) :
    host ≠ []
    ∧ (∀ c ∈ host, c ∈ auth ∧ c ≠ ':' ∧ c ≠ '@')
    ∧ (∀ p, port = some p → ∀ c ∈ p, isDigitC c = true) := by
  have hmem : ∀ c ∈ (afterLastAt auth).takeWhile (fun c => c ≠ ':'),
      c ∈ auth ∧ c ≠ ':' ∧ c ≠ '@' := by
    intro c hc
    have h1 := List.mem_takeWhile_imp hc
    have h2 := mem_afterLastAt ((List.takeWhile_sublist _).subset hc)
    exact ⟨h2.1, by simpa using h1, h2.2⟩
  simp only [parseHostPort] at h
  split at h
  · split at h
    · cases h
    · rename_i hne
      injection h with h
      injection h with h1 h2
      subst h1
      subst h2
      refine ⟨by simpa using hne, hmem, ?_⟩
      intro p hp
      cases hp
  · rename_i p0 hpp
    split at h
    · rename_i hall
      split at h
      · cases h
      · rename_i hne
        injection h with h
        injection h with h1 h2
        subst h1
        subst h2
        refine ⟨by simpa using hne, hmem, ?_⟩
        intro p hp
        injection hp with hp
        subst hp
        exact fun c hc => List.all_eq_true.mp hall c hc
    · cases h

/-- Re-parsing a serialized authority recovers host and port. -/
lemma parseHostPort_roundtrip {host : List Char} {port : Option (List Char)}
    (hne : host ≠ [])
    (hhost : ∀ c ∈ host, c ≠ ':' ∧ c ≠ '@')
    (hport : ∀ p, port = some p → ∀ c ∈ p, isDigitC c = true) :
    parseHostPort (host ++ portPartOf port) = some (host, port) := by
  have hhostAll : ∀ c ∈ host, (fun c => decide (c ≠ ':')) c = true :=
    fun c hc => decide_eq_true (hhost c hc).1
  have hhostNoAt : ∀ c ∈ host, c ≠ '@' := fun c hc => (hhost c hc).2
  cases port with
  | none =>
    simp only [portPartOf, List.append_nil]
    simp only [parseHostPort]
    rw [afterLastAt_eq_self hhostNoAt]
    rw [takeWhile_eq_self_of_all hhostAll, dropWhile_eq_nil_of_all hhostAll]
    rw [if_neg (by simpa using hne)]
  | some p =>
    have hdig : ∀ c ∈ p, isDigitC c = true := hport p rfl
    have hnoAt : ∀ c ∈ host ++ portPartOf (some p), c ≠ '@' := by
      intro c hc
      rcases List.mem_append.mp hc with h1 | h1
      · exact (hhost c h1).2
      · simp only [portPartOf] at h1
        rcases List.mem_cons.mp h1 with h2 | h2
        · subst h2
          decide
        · exact (digit_facts (hdig c h2)).2.2.1
    simp only [parseHostPort]
    rw [afterLastAt_eq_self hnoAt]
    simp only [portPartOf]
    rw [takeWhile_append_all _ hhostAll, dropWhile_append_all _ hhostAll]
    have hcolon : ((fun c => decide (c ≠ ':')) ':') = false := by decide
    rw [show ((':' :: p).takeWhile fun c => decide (c ≠ ':')) = [] from by
        simp [List.takeWhile_cons, hcolon],
      show ((':' :: p).dropWhile fun c => decide (c ≠ ':')) = ':' :: p from by
        simp [List.dropWhile_cons, hcolon],
      List.append_nil]
    have hall : p.all isDigitC = true := List.all_eq_true.mpr hdig
    simp only [hall, if_true]
    rw [if_neg (by simpa using hne)]

/-- Invariants of a successful URL parse: the host is non-empty and free
of whitespace, delimiters, `:` and `@`; the port is digits; the
remainder is whitespace-free. -/
lemma parseUrl_inv {l : List Char} {u : UrlParts} (h : parseUrl l = some u) :
    u.host ≠ []
    ∧ (∀ c ∈ u.host, wsChar c = false ∧ isDelim c = false ∧ c ≠ ':' ∧ c ≠ '@')
    ∧ (∀ p, u.port = some p → ∀ c ∈ p, isDigitC c = true)
    ∧ (∀ c ∈ u.rest, wsChar c = false) := by
  simp only [parseUrl] at h
  split at h
  · cases h
  · rename_i https rest hs
    split at h
    · cases h
    · rename_i hwF
      have hwAll : ∀ c ∈ rest, wsChar c = false :=
        all_of_any_false (by revert hwF; cases rest.any wsChar <;> simp)
      split at h
      · cases h
      · rename_i host port hphp
        obtain ⟨hne, hmem, hport⟩ := parseHostPort_inv hphp
        injection h with h
        subst h
        refine ⟨hne, ?_, hport, ?_⟩
        · intro c hc
          obtain ⟨hcAuth, hcColon, hcAt⟩ := hmem c hc
          have hcrest : c ∈ rest := (List.takeWhile_sublist _).subset hcAuth
          have hcnd := List.mem_takeWhile_imp hcAuth
          refine ⟨hwAll c hcrest, ?_, hcColon, hcAt⟩
          simpa using hcnd
        · intro c hc
          exact hwAll c ((List.dropWhile_sublist _).subset hc)

/-- The serialization of a URL whose host, port and remainder are
whitespace-free is whitespace-free. -/
lemma serialize_ws {u : UrlParts}
    (hhost : ∀ c ∈ u.host, wsChar c = false)
    (hport : ∀ p, u.port = some p → ∀ c ∈ p, isDigitC c = true)
    (hrest : ∀ c ∈ u.rest, wsChar c = false) :
    ∀ c ∈ serializeUrl u, wsChar c = false := by
  have hscheme : ∀ c ∈ (if u.https then "https://".data else "http://".data),
      wsChar c = false := by
    cases u.https
    · simpa using (by decide : ∀ c ∈ "http://".data, wsChar c = false)
    · simpa using (by decide : ∀ c ∈ "https://".data, wsChar c = false)
  have hportWs : ∀ c ∈ portPartOf u.port, wsChar c = false := by
    intro c hc
    cases hp : u.port with
    | none =>
      rw [hp] at hc
      cases hc
    | some p =>
      rw [hp] at hc
      simp only [portPartOf] at hc
      rcases List.mem_cons.mp hc with h1 | h1
      · subst h1
        rfl
      · exact (digit_facts (hport p hp c h1)).1
  intro c hc
  unfold serializeUrl at hc
  rcases List.mem_append.mp hc with hc1 | hc1
  · rcases List.mem_append.mp hc1 with hc2 | hc2
    · rcases List.mem_append.mp hc2 with hc3 | hc3
      · exact hscheme c hc3
      · exact hhost c hc3
    · exact hportWs c hc2
  · exact pathPartOf_ws hrest c hc1

/-- Re-parsing a serialized URL recovers it, with the remainder in
serialized path form. -/
lemma parse_serialize {l : List Char} {u : UrlParts} (h : parseUrl l = some u) :
    parseUrl (serializeUrl u)
      = some { https := u.https, host := u.host, port := u.port,
               rest := pathPartOf u.rest } := by
  obtain ⟨hne, hmem, hport, hrest⟩ := parseUrl_inv h
  have hs : schemeSplit (serializeUrl u)
      = some (u.https, u.host ++ portPartOf u.port ++ pathPartOf u.rest) := by
    unfold serializeUrl
    rw [List.append_assoc, List.append_assoc]
    cases hh : u.https
    · simp only [if_false, Bool.false_eq_true]
      rw [schemeSplit_http]
      rw [List.append_assoc]
    · simp only [if_true]
      rw [schemeSplit_https]
      rw [List.append_assoc]
  have hwAll : ∀ c ∈ u.host ++ portPartOf u.port ++ pathPartOf u.rest,
      wsChar c = false := by
    intro c hc
    rcases List.mem_append.mp hc with hc1 | hc1
    · rcases List.mem_append.mp hc1 with hc2 | hc2
      · exact (hmem c hc2).1
      · cases hp : u.port with
        | none =>
          rw [hp] at hc2
          cases hc2
        | some p =>
          rw [hp] at hc2
          simp only [portPartOf] at hc2
          rcases List.mem_cons.mp hc2 with h1 | h1
          · subst h1
            rfl
          · exact (digit_facts (hport p hp c h1)).1
    · exact pathPartOf_ws hrest c hc1
  have hhostND : ∀ c ∈ u.host, (fun c => !isDelim c) c = true := by
    intro c hc
    simp [(hmem c hc).2.1]
  have hportND : ∀ c ∈ portPartOf u.port, (fun c => !isDelim c) c = true := by
    intro c hc
    cases hp : u.port with
    | none =>
      rw [hp] at hc
      cases hc
    | some p =>
      rw [hp] at hc
      simp only [portPartOf] at hc
      rcases List.mem_cons.mp hc with h1 | h1
      · subst h1
        decide
      · simp [(digit_facts (hport p hp c h1)).2.1]
  obtain ⟨t, ht⟩ := pathPartOf_head u.rest
  have htw : (u.host ++ portPartOf u.port ++ pathPartOf u.rest).takeWhile
      (fun c => !isDelim c) = u.host ++ portPartOf u.port := by
    rw [List.append_assoc, takeWhile_append_all _ hhostND, takeWhile_append_all _ hportND]
    rw [ht]
    rw [show (('/' :: t).takeWhile fun c => !isDelim c) = [] from by
      simp [List.takeWhile_cons, isDelim]]
    simp
  have hdw : (u.host ++ portPartOf u.port ++ pathPartOf u.rest).dropWhile
      (fun c => !isDelim c) = pathPartOf u.rest := by
    rw [List.append_assoc, dropWhile_append_all _ hhostND, dropWhile_append_all _ hportND]
    rw [ht]
    rw [show (('/' :: t).dropWhile fun c => !isDelim c) = '/' :: t from by
      simp [List.dropWhile_cons, isDelim]]
  have hphp := parseHostPort_roundtrip hne (fun c hc => ⟨(hmem c hc).2.2.1, (hmem c hc).2.2.2⟩)
    hport
  simp only [parseUrl, hs]
  rw [show (u.host ++ portPartOf u.port ++ pathPartOf u.rest).any wsChar = false from
    any_false_of_all hwAll]
  simp only [Bool.false_eq_true, if_false]
  rw [htw, hdw, hphp]

/-- Idempotence core: a successfully normalized URL re-normalizes to
itself. -/
lemma normalizeUrl_roundtrip {x s : String} (h : normalizeUrl x = Except.ok s) :
    normalizeUrl s = Except.ok s := by
  unfold normalizeUrl at h
  split at h
  · cases h
  · unfold normalizeParsed at h
    split at h
    · cases h
    · rename_i u hp
      split at h
      · cases h
      · rename_i hcontains
        injection h with h
        subst h
        obtain ⟨hne, hmem, hport, hrest⟩ := parseUrl_inv hp
        have hws : ∀ c ∈ serializeUrl u, wsChar c = false :=
          serialize_ws (fun c hc => (hmem c hc).1) hport hrest
        have hnonnil : serializeUrl u ≠ [] := by
          unfold serializeUrl
          cases u.https <;> simp
        unfold normalizeUrl
        rw [show (String.mk (serializeUrl u)).data = serializeUrl u from rfl]
        rw [if_neg (by simpa [List.isEmpty_iff] using hnonnil)]
        rw [trimList_eq_self hws]
        have hparse2 := parse_serialize hp
        have hscheme : hasHttpScheme (serializeUrl u) = true :=
          hasHttpScheme_of_parse hparse2
        unfold withProto
        rw [if_pos hscheme]
        unfold normalizeParsed
        rw [hparse2]
        simp only []
        rw [if_neg (by simpa using hcontains)]
        have hser : serializeUrl ⟨u.https, u.host, u.port, pathPartOf u.rest⟩
            = serializeUrl u := by
          unfold serializeUrl
          simp only [pathPartOf_idem]
        rw [hser]

/-- Claim C8: for every input string whose parsed hostname lower-cases to
one of the disallowed literals (`localhost`, `127.0.0.1`, `0.0.0.0`) —
whatever path or query follows — `normalizeUrl` fails with the
host-not-allowed validation error, so no report is produced. -/
theorem claim_C8_disallowed_hosts (input : String) (u : UrlParts)
    (hparse : parseUrl (withProto (trimList input.data)) = some u)
    (hhost : disallowedHosts.contains (u.host.map lowerChar) = true) :
    normalizeUrl input = Except.error "Dominio non consentito." := by
  have hne : input.data.isEmpty = false := by
    cases hd : input.data with
    | nil =>
      exfalso
      rw [hd] at hparse
      rw [show parseUrl (withProto (trimList ([] : List Char))) = none from rfl] at hparse
      cases hparse
    | cons c cs => rfl
  unfold normalizeUrl
  rw [hne]
  simp only [Bool.false_eq_true, if_false]
  unfold normalizeParsed
  rw [hparse]
  have hmem : List.map lowerChar u.host ∈ disallowedHosts := by simpa using hhost
  simp [hmem]

/-- Claim C8 witness: `localhost` with a path and query suffix. -/
theorem claim_C8_disallowed_hosts_witness :
    normalizeUrl "localhost/admin?x=1" = Except.error "Dominio non consentito." :=
  claim_C8_disallowed_hosts "localhost/admin?x=1"
    ⟨true, "localhost".data, none, "/admin?x=1".data⟩ (by decide) (by decide)

/-- Claim C9: scheme-less inputs are parsed after prepending `https://`
(the normalizer hands `https:// ++ trimmed input` to the URL parser),
and normalization is idempotent on its own output: whenever
`normalizeUrl x` succeeds with `s`, normalizing `s` succeeds with `s`
again. -/
theorem claim_C9_prepend_idempotent :
    (∀ input : String, input.data.isEmpty = false →
      hasHttpScheme (trimList input.data) = false →
      normalizeUrl input = normalizeParsed ("https://".data ++ trimList input.data))
    ∧ (∀ x s : String, normalizeUrl x = Except.ok s →
        normalizeUrl s = Except.ok s) := by
  constructor
  · intro input h1 h2
    unfold normalizeUrl
    rw [h1]
    simp only [Bool.false_eq_true, if_false]
    unfold withProto
    rw [h2]
    simp
  · intro x s h
    exact normalizeUrl_roundtrip h

/-- Claim C9 witness: `example.com` gets the scheme prepended and
normalizes to `https://example.com/`, which renormalizes to itself. -/
theorem claim_C9_prepend_idempotent_witness :
    normalizeUrl "example.com"
      = normalizeParsed ("https://".data ++ trimList ("example.com" : String).data)
    ∧ normalizeUrl "example.com" = Except.ok "https://example.com/"
    ∧ normalizeUrl "https://example.com/" = Except.ok "https://example.com/" :=
  ⟨claim_C9_prepend_idempotent.1 "example.com" (by decide) (by decide),
   by rfl,
   claim_C9_prepend_idempotent.2 "example.com" "https://example.com/" (by rfl)⟩

/-- Claim C5 witness: concrete report — the quick wins are a subsequence
of the remediation texts and capped at 7. -/
theorem claim_C5_quickwins_projection_witness :
    List.Sublist (analyzeSite ⟨"", "", 1, "", "", "", "", ""⟩
        ⟨false, false, false, false, false, false⟩ false none).quickWins
      ((analyzeSite ⟨"", "", 1, "", "", "", "", ""⟩
        ⟨false, false, false, false, false, false⟩ false none).issues.map fun i => i.fix)
    ∧ (analyzeSite ⟨"", "", 1, "", "", "", "", ""⟩
        ⟨false, false, false, false, false, false⟩ false none).quickWins.length ≤ 7 :=
  ⟨(claim_C5_quickwins_projection ⟨"", "", 1, "", "", "", "", ""⟩
      ⟨false, false, false, false, false, false⟩ false none).1,
   (claim_C5_quickwins_projection ⟨"", "", 1, "", "", "", "", ""⟩
      ⟨false, false, false, false, false, false⟩ false none).2.1⟩

/-- Claim C6 witness: concrete report — the issue list is rank-sorted and
its high-severity slice equals the high-severity slice of the discovery
order concatenation. -/
theorem claim_C6_issues_sorted_stable_witness :
    ((analyzeSite ⟨"", "", 1, "", "", "", "", ""⟩
        ⟨false, false, false, false, false, false⟩ false none).issues.Pairwise
      fun a b => severityRank a.severity ≤ severityRank b.severity)
    ∧ (analyzeSite ⟨"", "", 1, "", "", "", "", ""⟩
        ⟨false, false, false, false, false, false⟩ false none).issues.filter
          (fun i => severityRank i.severity == 1)
      = (seoChecks ⟨"", "", 1, "", "", "", "", ""⟩
          ++ trustIssuesOf ⟨false, false, false, false, false, false⟩
          ++ uxIssuesOf false).filter (fun i => severityRank i.severity == 1) :=
  ⟨(claim_C6_issues_sorted_stable ⟨"", "", 1, "", "", "", "", ""⟩
      ⟨false, false, false, false, false, false⟩ false none).1,
   (claim_C6_issues_sorted_stable ⟨"", "", 1, "", "", "", "", ""⟩
      ⟨false, false, false, false, false, false⟩ false none).2 1⟩

/-- Claim C3 witness: concrete degraded run. -/
theorem claim_C3_fetch_failure_degrades_witness :
    routeHtml none = ""
    ∧ (POSTcore "https://example.com" none none sampleAttempt).platform
        = "Sconosciuta/Custom"
    ∧ (POSTcore "https://example.com" none none sampleAttempt).seo =
        ⟨"", "", "", "", "", "", "", ""⟩
    ∧ (POSTcore "https://example.com" none none sampleAttempt).trust =
        ⟨false, false, false, false, false, false⟩
    ∧ routeHasCTA "" = false
    ∧ (POSTcore "https://example.com" none none sampleAttempt).scores.ux = 92
    ∧ (POSTcore "https://example.com" none none sampleAttempt).httpStatus = none
    ∧ (POSTcore "https://example.com" none none sampleAttempt).input
        = "https://example.com" :=
  claim_C3_fetch_failure_degrades "https://example.com" none sampleAttempt
